import Mathlib

/-!
Verification of the condition-tree-to-SQL compiler of django-conditional-aggregates
(src/aggregates/conditional.py), shallowly embedded in Lean.

The embedding follows the source file:
- a Django Q object is a tree node with a connector (AND/OR), a negation flag and
  an ordered list of children; a child is either a nested Q, a resolved WhereNode
  (abstract renderable predicate) or a raw (lookup, value) tuple;
- transform_q replaces every raw tuple child, at every depth, by the WhereNode
  returned by query.build_filter; the host build_filter is modelled as an abstract
  function argument;
- render_q walks the tree and produces a (sql, params) pair, raising an
  AttributeError when it meets a raw tuple leaf (a Python string has no as_sql
  attribute); fallible code is modelled with Except;
- SQLConditionalAggregate.as_sql resolves the column, renders the when tree and
  splices both into the fixed CASE WHEN template; the Sum and Count subclasses are
  modelled as record builders fixing function, default and value.

Python lists mutated in place are modelled by explicit value passing: transform_q
returns the post-state of the tree it mutates, and Q.clone returns a structurally
equal independent copy, so mutating the clone leaves the original value unchanged.
-/

namespace Djconnagg

/-- Bind parameters are modelled as abstract strings. -/
abbrev Param := String

/-- The db specific quote names function passed into as_sql by Django. -/
abbrev Qn := String → String

/-- An already resolved leaf predicate: a Django WhereNode is abstract to this
library except for its as_sql method, which yields a (sql, params) pair given
the quote names function. The connection argument of the source is absorbed
into the function. -/
structure WhereNode where
  as_sql : Qn → String × List Param

/-- The connector of a Q object: Django sets Q.AND or Q.OR, rendered by its
string form. -/
inductive Conn where
  | AND
  | OR
deriving DecidableEq

/-- String form of the connector, as stored in Q.connector. -/
def Conn.str : Conn → String
  | .AND => "AND"
  | .OR => "OR"

mutual
/-- A Django Q object: connector, negated flag and ordered children list. -/
inductive Q where
  | mk (connector : Conn) (negated : Bool) (children : List QChild)

/-- A child of a Q object: a nested Q, a resolved WhereNode, or a still raw
(lookup, value) tuple. -/
inductive QChild where
  | sub (q : Q)
  | node (w : WhereNode)
  | raw (lookup : String) (value : Param)
end

/-- The connector of a tree. -/
def Q.connector : Q → Conn
  | .mk c _ _ => c

/-- The negated flag of a tree. -/
def Q.negated : Q → Bool
  | .mk _ n _ => n

/-- The children list of a tree. -/
def Q.children : Q → List QChild
  | .mk _ _ ch => ch

/-- The error render_q raises on a raw tuple child: unpacking the 2-tuple
succeeds and leaves the lookup string, whose missing as_sql attribute raises
AttributeError. -/
inductive RenderError where
  | attributeError
deriving DecidableEq

/-- Python str.join: the separator goes between consecutive elements only. -/
def str_join (sep : String) : List String → String
  | [] => ""
  | [s] => s
  | s :: ss => s ++ sep ++ str_join sep ss

mutual
/-- render_q from the source: renders the Q object into SQL for the WHEN
clause, returning the (SQL template, params) pair or the error raised. -/
def render_q : Q → Qn → Except RenderError (String × List Param)
  | .mk connector negated children, qn =>
    match renderChildren children qn with
    | .error e => .error e
    | .ok (conditions, params) =>
      let rendered := "(" ++ str_join (" " ++ connector.str ++ " ") conditions ++ ")"
      .ok (if negated then "NOT " ++ rendered else rendered, params)

/-- The child loop of render_q: conditions are collected and params extended
left to right; the first failing child aborts the whole call. -/
def renderChildren : List QChild → Qn → Except RenderError (List String × List Param)
  | [], _ => .ok ([], [])
  | c :: cs, qn =>
    match renderChild c qn with
    | .error e => .error e
    | .ok (condition, child_params) =>
      match renderChildren cs qn with
      | .error e => .error e
      | .ok (conditions, params) => .ok (condition :: conditions, child_params ++ params)

/-- One iteration of the render_q child loop: a nested Q is rendered
recursively and wrapped in an extra pair of parentheses; a WhereNode renders
through its own as_sql with no extra parentheses; a raw tuple raises. -/
def renderChild : QChild → Qn → Except RenderError (String × List Param)
  | .sub q, qn =>
    match render_q q qn with
    | .error e => .error e
    | .ok (condition, child_params) => .ok ("(" ++ condition ++ ")", child_params)
  | .node w, qn => .ok (w.as_sql qn)
  | .raw _ _, _ => .error .attributeError
end

mutual
/-- transform_q from the source: replaces every non-Q child, at every depth,
with the WhereNode built by query.build_filter from it. The host build_filter
is the abstract argument bf. The source mutates in place; here the post-state of
the mutated tree is returned. -/
def transform_q : Q → (QChild → WhereNode) → Q
  | .mk connector negated children, bf => .mk connector negated (transformChildren children bf)

/-- The child loop of transform_q. -/
def transformChildren : List QChild → (QChild → WhereNode) → List QChild
  | [], _ => []
  | c :: cs, bf => transformChild c bf :: transformChildren cs bf

/-- One iteration of the transform_q loop: recurse into nested Q objects,
replace any other child by the WhereNode built from it. -/
def transformChild : QChild → (QChild → WhereNode) → QChild
  | .sub q, bf => .sub (transform_q q bf)
  | .node w, bf => .node (bf (.node w))
  | .raw lookup value, bf => .node (bf (.raw lookup value))
end

mutual
/-- Q.clone: an independent structurally equal copy of the tree, so that
mutation of the copy cannot reach the original. -/
def Q.clone : Q → Q
  | .mk connector negated children => .mk connector negated (cloneChildren children)

/-- Clone of a children list. -/
def cloneChildren : List QChild → List QChild
  | [] => []
  | c :: cs => cloneChild c :: cloneChildren cs

/-- Clone of a single child. -/
def cloneChild : QChild → QChild
  | .sub q => .sub (Q.clone q)
  | .node w => .node w
  | .raw lookup value => .raw lookup value
end

/-- ConditionalAggregate.add_to_query, state passing view of the mutation:
the when tree held by the spec is cloned, the clone is normalized by
transform_q and handed to the SQL aggregate, and the caller held tree keeps
its pre-call state (first component: the aggregate tree, second component:
the post-call state of the spec held template tree). -/
def ConditionalAggregate.add_to_query (self_when : Q) (bf : QChild → WhereNode) : Q × Q :=
  (transform_q (Q.clone self_when) bf, self_when)

/-- The col attribute handed to SQLConditionalAggregate: an expression object
with its own as_sql, a tuple of names joined with dots after quoting, or a
plain string. -/
inductive Col where
  | expr (as_sql : Qn → String × List Param)
  | names (cs : List String)
  | plain (s : String)

/-- The column resolution step of SQLConditionalAggregate.as_sql: the
resulting field_name together with the params it contributes (only the
expression branch contributes params; the other branches leave the initial
empty list). -/
def field_name_of : Col → Qn → String × List Param
  | .expr f, qn => f qn
  | .names cs, qn => (str_join "." (cs.map qn), [])
  | .plain s, _ => (s, [])

/-- SQLConditionalAggregate.sql_template with its four substitutions
applied. -/
def sql_template (function when_clause value default : String) : String :=
  function ++ "(CASE WHEN " ++ when_clause ++ " THEN " ++ value ++ " ELSE " ++ default ++ " END)"

/-- SQLConditionalAggregate flattened to a record: the class attributes
sql_function and default, the get_value customization point (a function of
the resolved field_name, covering both concrete subclasses), the col and the
normalized when tree. The extra dict is empty for both shipped subclasses and
is not modelled. -/
structure SQLConditionalAggregate where
  sql_function : String
  default : String
  get_value : String → String
  col : Col
  when : Q

/-- SQLConditionalAggregate.as_sql: resolve the column, render the when tree,
splice function, when clause, value and default into the template, and return
the column params extended with the when params. -/
def SQLConditionalAggregate.as_sql (a : SQLConditionalAggregate) (qn : Qn) :
    Except RenderError (String × List Param) :=
  let fp := field_name_of a.col qn
  match render_q a.when qn with
  | .error e => .error e
  | .ok (when_clause, when_params) =>
    .ok (sql_template a.sql_function when_clause (a.get_value fp.fst) a.default,
         fp.snd ++ when_params)

/-- ConditionalSum.SQLClass: function SUM, default 0, value the resolved
field name. -/
def ConditionalSum.SQLClass (col : Col) (when : Q) : SQLConditionalAggregate :=
  { sql_function := "SUM"
    default := "0"
    get_value := fun field_name => field_name
    col := col
    when := when }

/-- ConditionalCount.SQLClass: function COUNT, default NULL, value the
literal 1 regardless of the column. -/
def ConditionalCount.SQLClass (col : Col) (when : Q) : SQLConditionalAggregate :=
  { sql_function := "COUNT"
    default := "NULL"
    get_value := fun _ => "1"
    col := col
    when := when }

mutual
/-- True when no raw tuple child remains anywhere in the tree. -/
def Q.noRaw : Q → Bool
  | .mk _ _ children => childrenNoRaw children

/-- noRaw over a children list. -/
def childrenNoRaw : List QChild → Bool
  | [] => true
  | c :: cs => childNoRaw c && childrenNoRaw cs

/-- noRaw over a single child. -/
def childNoRaw : QChild → Bool
  | .sub q => Q.noRaw q
  | .node _ => true
  | .raw _ _ => false
end

mutual
/-- True when every leaf child anywhere in the tree is a raw tuple: the state
of a caller built template tree before any normalization. -/
def Q.rawOnly : Q → Bool
  | .mk _ _ children => childrenRawOnly children

/-- rawOnly over a children list. -/
def childrenRawOnly : List QChild → Bool
  | [] => true
  | c :: cs => childRawOnly c && childrenRawOnly cs

/-- rawOnly over a single child. -/
def childRawOnly : QChild → Bool
  | .sub q => Q.rawOnly q
  | .node _ => false
  | .raw _ _ => true
end

mutual
/-- The connector and negation skeleton of a tree, with leaf contents
erased. -/
inductive QShape where
  | mk (connector : Conn) (negated : Bool) (children : List ShapeChild)

/-- A child position in a shape: a nested shape or an anonymous leaf. -/
inductive ShapeChild where
  | sub (s : QShape)
  | leaf
end

mutual
/-- The shape of a tree. -/
def Q.shape : Q → QShape
  | .mk connector negated children => .mk connector negated (childrenShape children)

/-- Shapes of a children list. -/
def childrenShape : List QChild → List ShapeChild
  | [] => []
  | c :: cs => childShape c :: childrenShape cs

/-- Shape of a single child. -/
def childShape : QChild → ShapeChild
  | .sub q => .sub (Q.shape q)
  | .node _ => .leaf
  | .raw _ _ => .leaf
end

mutual
/-- The leaf children of a tree, collected left to right in pre-order:
exactly the child positions that are not nested sub-trees. -/
def Q.leafChildren : Q → List QChild
  | .mk _ _ children => childrenLeafChildren children

/-- Leaf children of a children list. -/
def childrenLeafChildren : List QChild → List QChild
  | [] => []
  | c :: cs => childLeafChildren c ++ childrenLeafChildren cs

/-- Leaf children below a single child. -/
def childLeafChildren : QChild → List QChild
  | .sub q => Q.leafChildren q
  | .node w => [.node w]
  | .raw lookup value => [.raw lookup value]
end

mutual
/-- The (sql, params) pairs of the WhereNode leaves of a tree, collected left
to right in pre-order; raw tuple leaves contribute nothing (rendering them
fails anyway). -/
def Q.leafRenders : Q → Qn → List (String × List Param)
  | .mk _ _ children, qn => childrenLeafRenders children qn

/-- Leaf renders of a children list. -/
def childrenLeafRenders : List QChild → Qn → List (String × List Param)
  | [], _ => []
  | c :: cs, qn => childLeafRenders c qn ++ childrenLeafRenders cs qn

/-- Leaf renders below a single child. -/
def childLeafRenders : QChild → Qn → List (String × List Param)
  | .sub q, qn => Q.leafRenders q qn
  | .node w, qn => [w.as_sql qn]
  | .raw _ _, _ => []
end

/-- Number of percent characters of a string: every placeholder a leaf emits
contains exactly one, and none of the fixed glue the compiler adds contains
any. -/
def pct (s : String) : Nat := s.data.countP (fun c => c == '%')

/-- Interleaved s fragments holds when s is the concatenation, in order, of
the given fragments separated (and surrounded) by glue that contains no
percent character: all placeholders of s come from the fragments, in the
listed order. -/
inductive Interleaved : String → List String → Prop where
  | glue (g : String) (hg : pct g = 0) : Interleaved g []
  | piece (g : String) (hg : pct g = 0) (l rest : String) (ls : List String)
      (h : Interleaved rest ls) : Interleaved (g ++ (l ++ rest)) (l :: ls)

theorem pct_append (a b : String) : pct (a ++ b) = pct a + pct b := by
  simp [pct, String.data_append, List.countP_append]

theorem Interleaved.append_glue {s : String} {ls : List String} (h : Interleaved s ls)
    (g : String) (hg : pct g = 0) : Interleaved (s ++ g) ls := by
  induction h with
  | glue g0 hg0 => exact .glue (g0 ++ g) (by simp [pct_append, hg0, hg])
  | piece g0 hg0 l rest ls h0 ih =>
    have he : (g0 ++ (l ++ rest)) ++ g = g0 ++ (l ++ (rest ++ g)) := by
      simp [String.append_assoc]
    rw [he]
    exact .piece g0 hg0 l (rest ++ g) ls ih

theorem Interleaved.prepend_glue (g : String) (hg : pct g = 0) {s : String} {ls : List String}
    (h : Interleaved s ls) : Interleaved (g ++ s) ls := by
  cases h with
  | glue g0 hg0 => exact .glue (g ++ s) (by simp [pct_append, hg, hg0])
  | piece g0 hg0 l rest ls h0 =>
    have he : g ++ (g0 ++ (l ++ rest)) = (g ++ g0) ++ (l ++ rest) := by
      simp [String.append_assoc]
    rw [he]
    exact .piece (g ++ g0) (by simp [pct_append, hg, hg0]) l rest ls h0

theorem Interleaved.append {s1 s2 : String} {L1 L2 : List String}
    (h1 : Interleaved s1 L1) (h2 : Interleaved s2 L2) :
    Interleaved (s1 ++ s2) (L1 ++ L2) := by
  induction h1 with
  | glue g hg => simpa using h2.prepend_glue g hg
  | piece g hg l rest ls h0 ih =>
    have he : (g ++ (l ++ rest)) ++ s2 = g ++ (l ++ (rest ++ s2)) := by
      simp [String.append_assoc]
    rw [List.cons_append, he]
    exact .piece g hg l (rest ++ s2) (ls ++ L2) ih

theorem Interleaved.single (l : String) : Interleaved l [l] := by
  have h : Interleaved ("" ++ (l ++ "")) [l] :=
    .piece "" rfl l "" [] (.glue "" rfl)
  simpa [String.empty_append, String.append_empty] using h

/-- Joining fragment carriers with percent free glue yields a carrier of the
concatenated fragment lists. -/
theorem interleaved_str_join {sep : String} (hsep : pct sep = 0) :
    ∀ (ss : List String) (Ls : List (List String)),
      List.Forall₂ Interleaved ss Ls → Interleaved (str_join sep ss) Ls.flatten := by
  intro ss
  induction ss with
  | nil =>
    intro Ls h
    cases h
    exact .glue "" rfl
  | cons s ss ih =>
    intro Ls h
    cases h with
    | cons hsl htail =>
      cases ss with
      | nil =>
        cases htail
        simpa [str_join] using hsl.append_glue "" rfl
      | cons s2 ss2 =>
        have hrest := ih _ htail
        have hall := (hsl.append_glue sep hsep).append hrest
        simpa [str_join, List.flatten_cons] using hall

/-- The percent free separator used by render_q. -/
theorem pct_connector (conn : Conn) : pct (" " ++ conn.str ++ " ") = 0 := by
  cases conn <;> decide

theorem childrenLeafRenders_eq_flatten (cs : List QChild) (qn : Qn) :
    childrenLeafRenders cs qn = (cs.map (fun c => childLeafRenders c qn)).flatten := by
  induction cs with
  | nil => rfl
  | cons c cs ih => simp [childrenLeafRenders, ih]

mutual
/-- A successful render returns exactly the pre-order concatenation of the
leaf param lists, and its SQL is the leaf SQL fragments in pre-order joined
by percent free glue. -/
theorem render_q_leaf_params (q : Q) (qn : Qn) (s : String) (ps : List Param)
    (h : render_q q qn = .ok (s, ps)) :
    ps = ((Q.leafRenders q qn).map Prod.snd).flatten ∧
    Interleaved s ((Q.leafRenders q qn).map Prod.fst) := by
  match q with
  | .mk conn neg children =>
    simp only [render_q] at h
    cases hrc : renderChildren children qn with
    | error e => rw [hrc] at h; simp at h
    | ok r =>
      obtain ⟨conds, params⟩ := r
      rw [hrc] at h
      simp only [Except.ok.injEq, Prod.mk.injEq] at h
      obtain ⟨hs, hps⟩ := h
      have ih := renderChildren_leaf_params children qn conds params hrc
      have hlist : (Q.leafRenders (Q.mk conn neg children) qn).map Prod.fst =
          (children.map (fun c => (childLeafRenders c qn).map Prod.fst)).flatten := by
        simp [Q.leafRenders, childrenLeafRenders_eq_flatten, List.map_flatten,
          List.map_map, Function.comp_def]
      have hjoin := interleaved_str_join (pct_connector conn) conds _ ih.2
      rw [← hlist] at hjoin
      have hwrap := (hjoin.prepend_glue "(" (by decide)).append_glue ")" (by decide)
      constructor
      · rw [← hps]
        simpa [Q.leafRenders] using ih.1
      · rw [← hs]
        cases neg with
        | false => simpa using hwrap
        | true => simpa using hwrap.prepend_glue "NOT " (by decide)

/-- The child loop of a successful render: params are the concatenation of
the per child leaf params, and each returned condition string carries that
child leaf SQL fragments. -/
theorem renderChildren_leaf_params (cs : List QChild) (qn : Qn) (ss : List String)
    (ps : List Param) (h : renderChildren cs qn = .ok (ss, ps)) :
    ps = ((childrenLeafRenders cs qn).map Prod.snd).flatten ∧
    List.Forall₂ Interleaved ss (cs.map (fun c => (childLeafRenders c qn).map Prod.fst)) := by
  match cs with
  | [] =>
    simp only [renderChildren, Except.ok.injEq, Prod.mk.injEq] at h
    obtain ⟨hss, hps⟩ := h
    subst hss; subst hps
    exact ⟨rfl, List.Forall₂.nil⟩
  | c :: cs =>
    simp only [renderChildren] at h
    cases hc : renderChild c qn with
    | error e => rw [hc] at h; simp at h
    | ok r =>
      obtain ⟨cond, cps⟩ := r
      rw [hc] at h
      cases hcs : renderChildren cs qn with
      | error e => rw [hcs] at h; simp at h
      | ok r2 =>
        obtain ⟨conds, params⟩ := r2
        rw [hcs] at h
        simp only [Except.ok.injEq, Prod.mk.injEq] at h
        obtain ⟨hss, hps⟩ := h
        have ihc := renderChild_leaf_params c qn cond cps hc
        have ihcs := renderChildren_leaf_params cs qn conds params hcs
        constructor
        · rw [← hps]
          simp [childrenLeafRenders, List.map_append, List.flatten_append, ihc.1, ihcs.1]
        · rw [← hss]
          simpa using List.Forall₂.cons ihc.2 ihcs.2

/-- One successful child render: params are that child leaf params, and the
condition string carries that child leaf SQL fragments. -/
theorem renderChild_leaf_params (c : QChild) (qn : Qn) (s : String) (ps : List Param)
    (h : renderChild c qn = .ok (s, ps)) :
    ps = ((childLeafRenders c qn).map Prod.snd).flatten ∧
    Interleaved s ((childLeafRenders c qn).map Prod.fst) := by
  match c with
  | .sub q =>
    simp only [renderChild] at h
    cases hq : render_q q qn with
    | error e => rw [hq] at h; simp at h
    | ok r =>
      obtain ⟨cond, cps⟩ := r
      rw [hq] at h
      simp only [Except.ok.injEq, Prod.mk.injEq] at h
      obtain ⟨hs, hps⟩ := h
      have ih := render_q_leaf_params q qn cond cps hq
      constructor
      · rw [← hps]; simpa [childLeafRenders] using ih.1
      · rw [← hs]
        simpa [childLeafRenders] using
          (ih.2.prepend_glue "(" (by decide)).append_glue ")" (by decide)
  | .node w =>
    simp only [renderChild, Except.ok.injEq] at h
    have hs : s = (w.as_sql qn).fst := by rw [h]
    have hps : ps = (w.as_sql qn).snd := by rw [h]
    subst hs; subst hps
    constructor
    · simp [childLeafRenders]
    · simpa [childLeafRenders] using Interleaved.single (w.as_sql qn).fst
  | .raw lookup value =>
    simp only [renderChild] at h
    simp at h
end

/-- Negating a tree only prefixes NOT to its SQL; the params are untouched. -/
theorem render_q_negated (conn : Conn) (ch : List QChild) (qn : Qn) :
    render_q (Q.mk conn true ch) qn =
      (render_q (Q.mk conn false ch) qn).map (fun r => ("NOT " ++ r.fst, r.snd)) := by
  simp only [render_q]
  cases hrc : renderChildren ch qn with
  | error e => rfl
  | ok r =>
    obtain ⟨conds, params⟩ := r
    rfl

/-- Witness input: a leaf predicate rendering to one placeholder and one
param. -/
def wLeafA : WhereNode := ⟨fun _ => ("a = %s", ["x"])⟩

/-- Witness input: a second leaf predicate. -/
def wLeafB : WhereNode := ⟨fun _ => ("b = %s", ["y"])⟩

/-- Witness input: the identity quote names function. -/
def idQn : Qn := fun s0 => s0

/-- Witness input: a quote names function that double quotes its argument. -/
def quoteQn : Qn := fun s0 => "\"" ++ s0 ++ "\""

/-- C2: for a well formed normalized tree, the params returned by render_q
are the concatenation of the leaf predicates own param lists in pre-order
leaf order; the length is the sum of the leaf param counts; the SQL is the
leaf SQL fragments in that same order joined by placeholder free glue, so
param order matches placeholder order; and negation does not change (hence
does not reorder) the params. -/
theorem C2_render_params_order (conn : Conn) (neg : Bool) (ch : List QChild) (qn : Qn)
    (s : String) (ps : List Param)
    (h : render_q (Q.mk conn neg ch) qn = .ok (s, ps)) :
    ps = ((Q.leafRenders (Q.mk conn neg ch) qn).map Prod.snd).flatten ∧
    ps.length = ((Q.leafRenders (Q.mk conn neg ch) qn).map (fun r => r.snd.length)).sum ∧
    Interleaved s ((Q.leafRenders (Q.mk conn neg ch) qn).map Prod.fst) ∧
    render_q (Q.mk conn true ch) qn =
      (render_q (Q.mk conn false ch) qn).map (fun r => ("NOT " ++ r.fst, r.snd)) := by
  obtain ⟨h1, h2⟩ := render_q_leaf_params _ qn s ps h
  refine ⟨h1, ?_, h2, render_q_negated conn ch qn⟩
  rw [h1]
  simp [List.length_flatten, List.map_map, Function.comp_def]

/-- C2 witness at a concrete two leaf AND tree. -/
theorem C2_render_params_order_witness :
    (["x", "y"] : List Param) =
      ((Q.leafRenders (Q.mk .AND false [.node wLeafA, .node wLeafB]) idQn).map
        Prod.snd).flatten ∧
    (["x", "y"] : List Param).length =
      ((Q.leafRenders (Q.mk .AND false [.node wLeafA, .node wLeafB]) idQn).map
        (fun r => r.snd.length)).sum ∧
    Interleaved "(a = %s AND b = %s)"
      ((Q.leafRenders (Q.mk .AND false [.node wLeafA, .node wLeafB]) idQn).map Prod.fst) ∧
    render_q (Q.mk .AND true [.node wLeafA, .node wLeafB]) idQn =
      (render_q (Q.mk .AND false [.node wLeafA, .node wLeafB]) idQn).map
        (fun r => ("NOT " ++ r.fst, r.snd)) :=
  C2_render_params_order .AND false [.node wLeafA, .node wLeafB] idQn
    "(a = %s AND b = %s)" ["x", "y"] rfl

/-- How one child of a rendered tree relates to its condition string: a
nested sub-tree is rendered recursively and wrapped in an extra pair of
parentheses, a WhereNode leaf is rendered by its own as_sql with no extra
parentheses, and a raw tuple cannot occur. -/
def childRenderedAs (qn : Qn) (c : QChild) (s : String) : Prop :=
  (∀ q : Q, c = QChild.sub q →
    ∃ s0 ps0, render_q q qn = .ok (s0, ps0) ∧ s = "(" ++ s0 ++ ")") ∧
  (∀ w : WhereNode, c = QChild.node w → s = (w.as_sql qn).fst) ∧
  (∀ lookup value, c ≠ QChild.raw lookup value)

/-- Each child of a successful child loop run is related to its condition
string as render_q renders it. -/
theorem renderChildren_rendered (cs : List QChild) (qn : Qn) (ss : List String)
    (ps : List Param) (h : renderChildren cs qn = .ok (ss, ps)) :
    List.Forall₂ (childRenderedAs qn) cs ss := by
  induction cs generalizing ss ps with
  | nil =>
    simp only [renderChildren, Except.ok.injEq, Prod.mk.injEq] at h
    obtain ⟨hss, _⟩ := h
    subst hss
    exact .nil
  | cons c cs ih =>
    simp only [renderChildren] at h
    cases hc : renderChild c qn with
    | error e => rw [hc] at h; simp at h
    | ok r =>
      obtain ⟨cond, cps⟩ := r
      rw [hc] at h
      cases hcs : renderChildren cs qn with
      | error e => rw [hcs] at h; simp at h
      | ok r2 =>
        obtain ⟨conds, params⟩ := r2
        rw [hcs] at h
        simp only [Except.ok.injEq, Prod.mk.injEq] at h
        obtain ⟨hss, hps⟩ := h
        rw [← hss]
        refine List.Forall₂.cons ?_ (ih conds params hcs)
        match c with
        | .sub q =>
          simp only [renderChild] at hc
          cases hq : render_q q qn with
          | error e => rw [hq] at hc; simp at hc
          | ok r3 =>
            obtain ⟨s0, ps0⟩ := r3
            rw [hq] at hc
            simp only [Except.ok.injEq, Prod.mk.injEq] at hc
            refine ⟨?_, ?_, ?_⟩
            · intro q0 hq0
              cases hq0
              exact ⟨s0, ps0, hq, hc.1.symm⟩
            · intro w hw
              cases hw
            · intro lookup value hraw
              cases hraw
        | .node w =>
          simp only [renderChild, Except.ok.injEq] at hc
          refine ⟨?_, ?_, ?_⟩
          · intro q0 hq0
            cases hq0
          · intro w0 hw0
            cases hw0
            rw [hc]
          · intro lookup value hraw
            cases hraw
        | .raw lookup value =>
          simp only [renderChild] at hc
          simp at hc

/-- C3: a tree with a non-empty children list renders each child left to
right into a condition string (sub-trees recursively with an extra pair of
parentheses, leaves through their own as_sql), joins them with the connector
surrounded by single spaces, wraps the join in exactly one outer pair of
parentheses and prefixes NOT exactly when the tree is negated; by the shape
of str_join a singleton children list never meets the connector string. -/
theorem C3_render_structure (conn : Conn) (neg : Bool) (children0 : List QChild) (qn : Qn)
    (ss : List String) (ps : List Param)
    (_hne : children0 ≠ [])
    (h : renderChildren children0 qn = .ok (ss, ps)) :
    render_q (Q.mk conn neg children0) qn =
      .ok ((if neg then "NOT " else "") ++
        ("(" ++ str_join (" " ++ conn.str ++ " ") ss ++ ")"), ps) ∧
    List.Forall₂ (childRenderedAs qn) children0 ss := by
  refine ⟨?_, renderChildren_rendered children0 qn ss ps h⟩
  simp only [render_q]
  rw [h]
  cases neg with
  | false => simp [String.empty_append]
  | true => rfl

/-- C3 witness at a concrete tree with a leaf child and a nested sub-tree
child. -/
theorem C3_render_structure_witness :
    render_q (Q.mk .OR false [.node wLeafA, .sub (Q.mk .OR false [.node wLeafB])]) idQn =
      .ok ((if false then "NOT " else "") ++
        ("(" ++ str_join (" " ++ Conn.OR.str ++ " ") ["a = %s", "((b = %s))"] ++ ")"),
        ["x", "y"]) ∧
    List.Forall₂ (childRenderedAs idQn)
      [.node wLeafA, .sub (Q.mk .OR false [.node wLeafB])] ["a = %s", "((b = %s))"] :=
  C3_render_structure .OR false _ idQn _ _ (List.cons_ne_nil _ _) rfl

mutual
/-- A tree containing a raw tuple leaf anywhere always renders to the
AttributeError, never to an incomplete SQL fragment. -/
theorem render_q_raw_error (q : Q) (qn : Qn) (h : Q.noRaw q = false) :
    render_q q qn = .error .attributeError := by
  match q with
  | .mk conn neg children =>
    simp only [Q.noRaw] at h
    simp only [render_q, renderChildren_raw_error children qn h]

/-- The child loop aborts with AttributeError when some child still holds a
raw tuple. -/
theorem renderChildren_raw_error (cs : List QChild) (qn : Qn)
    (h : childrenNoRaw cs = false) :
    renderChildren cs qn = .error .attributeError := by
  match cs with
  | [] => simp [childrenNoRaw] at h
  | c :: cs =>
    simp only [childrenNoRaw, Bool.and_eq_false_iff] at h
    cases h with
    | inl hc => simp only [renderChildren, renderChild_raw_error c qn hc]
    | inr hcs =>
      simp only [renderChildren]
      cases hc : renderChild c qn with
      | error e => cases e; rfl
      | ok r =>
        obtain ⟨cond, cps⟩ := r
        simp only [renderChildren_raw_error cs qn hcs]

/-- A single child holding a raw tuple renders to the AttributeError. -/
theorem renderChild_raw_error (c : QChild) (qn : Qn) (h : childNoRaw c = false) :
    renderChild c qn = .error .attributeError := by
  match c with
  | .sub q =>
    simp only [childNoRaw] at h
    simp only [renderChild, render_q_raw_error q qn h]
  | .node w => simp [childNoRaw] at h
  | .raw lookup value => rfl
end

/-- C8: rendering a tree that still contains an unresolved raw
(lookup, value) leaf raises AttributeError synchronously and returns no SQL
fragment. -/
theorem C8_raw_leaf_error (q : Q) (qn : Qn) (h : Q.noRaw q = false) :
    render_q q qn = .error RenderError.attributeError :=
  render_q_raw_error q qn h

/-- C8 witness at a concrete tree with one raw tuple leaf. -/
theorem C8_raw_leaf_error_witness :
    render_q (Q.mk .AND false [.node wLeafA, .raw "detail" "e"]) idQn =
      .error RenderError.attributeError :=
  C8_raw_leaf_error (Q.mk .AND false [.node wLeafA, .raw "detail" "e"]) idQn rfl

/-- True exactly on raw tuple children. -/
def isRawChild : QChild → Bool
  | .raw _ _ => true
  | _ => false

mutual
/-- After transform_q no raw tuple child remains anywhere. -/
theorem transform_q_noRaw (q : Q) (bf : QChild → WhereNode) :
    Q.noRaw (transform_q q bf) = true := by
  match q with
  | .mk conn neg ch =>
    simp only [transform_q, Q.noRaw]
    exact transformChildren_noRaw ch bf

/-- noRaw of a transformed children list. -/
theorem transformChildren_noRaw (cs : List QChild) (bf : QChild → WhereNode) :
    childrenNoRaw (transformChildren cs bf) = true := by
  match cs with
  | [] => rfl
  | c :: cs =>
    simp only [transformChildren, childrenNoRaw, transformChild_noRaw c bf,
      transformChildren_noRaw cs bf, Bool.and_self]

/-- noRaw of a transformed child. -/
theorem transformChild_noRaw (c : QChild) (bf : QChild → WhereNode) :
    childNoRaw (transformChild c bf) = true := by
  match c with
  | .sub q =>
    simp only [transformChild, childNoRaw]
    exact transform_q_noRaw q bf
  | .node w => rfl
  | .raw lookup value => rfl
end

mutual
/-- transform_q preserves the connector and negation skeleton at every
depth. -/
theorem transform_q_shape (q : Q) (bf : QChild → WhereNode) :
    Q.shape (transform_q q bf) = Q.shape q := by
  match q with
  | .mk conn neg ch =>
    simp only [transform_q, Q.shape, transformChildren_shape ch bf]

/-- Shape preservation over a children list. -/
theorem transformChildren_shape (cs : List QChild) (bf : QChild → WhereNode) :
    childrenShape (transformChildren cs bf) = childrenShape cs := by
  match cs with
  | [] => rfl
  | c :: cs =>
    simp only [transformChildren, childrenShape, transformChild_shape c bf,
      transformChildren_shape cs bf]

/-- Shape preservation over a single child. -/
theorem transformChild_shape (c : QChild) (bf : QChild → WhereNode) :
    childShape (transformChild c bf) = childShape c := by
  match c with
  | .sub q =>
    simp only [transformChild, childShape, transform_q_shape q bf]
  | .node w => rfl
  | .raw lookup value => rfl
end

mutual
/-- The leaf children of the transformed tree are exactly the WhereNodes
built by bf from the original leaf children, in the same pre-order
positions. -/
theorem transform_q_leaves (q : Q) (bf : QChild → WhereNode) :
    Q.leafChildren (transform_q q bf) =
      (Q.leafChildren q).map (fun c => QChild.node (bf c)) := by
  match q with
  | .mk conn neg ch =>
    simp only [transform_q, Q.leafChildren, transformChildren_leaves ch bf]

/-- Leaf replacement over a children list. -/
theorem transformChildren_leaves (cs : List QChild) (bf : QChild → WhereNode) :
    childrenLeafChildren (transformChildren cs bf) =
      (childrenLeafChildren cs).map (fun c => QChild.node (bf c)) := by
  match cs with
  | [] => rfl
  | c :: cs =>
    simp only [transformChildren, childrenLeafChildren, transformChild_leaves c bf,
      transformChildren_leaves cs bf, List.map_append]

/-- Leaf replacement below a single child. -/
theorem transformChild_leaves (c : QChild) (bf : QChild → WhereNode) :
    childLeafChildren (transformChild c bf) =
      (childLeafChildren c).map (fun c0 => QChild.node (bf c0)) := by
  match c with
  | .sub q =>
    simp only [transformChild, childLeafChildren, transform_q_leaves q bf]
  | .node w => rfl
  | .raw lookup value => rfl
end

mutual
/-- In a raw only template tree every leaf child is a raw tuple. -/
theorem rawOnly_leaves_q (q : Q) (h : Q.rawOnly q = true) :
    (Q.leafChildren q).all isRawChild = true := by
  match q with
  | .mk conn neg ch =>
    simp only [Q.rawOnly] at h
    simp only [Q.leafChildren]
    exact rawOnly_leaves_children ch h

/-- Raw only leaves over a children list. -/
theorem rawOnly_leaves_children (cs : List QChild) (h : childrenRawOnly cs = true) :
    (childrenLeafChildren cs).all isRawChild = true := by
  match cs with
  | [] => rfl
  | c :: cs =>
    simp only [childrenRawOnly, Bool.and_eq_true] at h
    simp only [childrenLeafChildren, List.all_append,
      rawOnly_leaves_child c h.1, rawOnly_leaves_children cs h.2, Bool.and_self]

/-- Raw only leaves below a single child. -/
theorem rawOnly_leaves_child (c : QChild) (h : childRawOnly c = true) :
    (childLeafChildren c).all isRawChild = true := by
  match c with
  | .sub q =>
    simp only [childRawOnly] at h
    simp only [childLeafChildren]
    exact rawOnly_leaves_q q h
  | .node w => simp [childRawOnly] at h
  | .raw lookup value => rfl
end

/-- C10: on a template tree whose leaves are all raw (lookup, value) tuples,
transform_q leaves no raw tuple anywhere, preserves the connector and
negation structure at every depth, and replaces each leaf, in its pre-order
position, by the node built by query.build_filter from it. -/
theorem C10_transform_normalizes (q : Q) (bf : QChild → WhereNode)
    (h : Q.rawOnly q = true) :
    Q.noRaw (transform_q q bf) = true ∧
    Q.shape (transform_q q bf) = Q.shape q ∧
    Q.leafChildren (transform_q q bf) =
      (Q.leafChildren q).map (fun c => QChild.node (bf c)) ∧
    (Q.leafChildren q).all isRawChild = true :=
  ⟨transform_q_noRaw q bf, transform_q_shape q bf, transform_q_leaves q bf,
    rawOnly_leaves_q q h⟩

/-- Witness input: a host build_filter model returning a fixed WhereNode for
every raw tuple. -/
def wBf : QChild → WhereNode := fun _ => ⟨fun _ => ("detail = %s", ["f"])⟩

/-- Witness input: a raw only template tree with a nested negated branch. -/
def wRawT : Q :=
  .mk .OR false [.raw "detail" "f", .sub (.mk .AND true [.raw "stat_type" "u"])]

/-- C10 witness at a concrete raw only template tree. -/
theorem C10_transform_normalizes_witness :
    Q.noRaw (transform_q wRawT wBf) = true ∧
    Q.shape (transform_q wRawT wBf) = Q.shape wRawT ∧
    Q.leafChildren (transform_q wRawT wBf) =
      (Q.leafChildren wRawT).map (fun c => QChild.node (wBf c)) ∧
    (Q.leafChildren wRawT).all isRawChild = true :=
  C10_transform_normalizes wRawT wBf rfl

mutual
/-- Q.clone rebuilds a structurally equal tree. -/
theorem Q.clone_eq (q : Q) : Q.clone q = q := by
  match q with
  | .mk conn neg ch => simp only [Q.clone, cloneChildren_eq ch]

/-- Clone of a children list is structurally equal. -/
theorem cloneChildren_eq (cs : List QChild) : cloneChildren cs = cs := by
  match cs with
  | [] => rfl
  | c :: cs => simp only [cloneChildren, cloneChild_eq c, cloneChildren_eq cs]

/-- Clone of a child is structurally equal. -/
theorem cloneChild_eq (c : QChild) : cloneChild c = c := by
  match c with
  | .sub q => simp only [cloneChild, Q.clone_eq q]
  | .node w => rfl
  | .raw lookup value => rfl
end

/-- C4: add_to_query clones the spec held when tree before transform_q
mutates it, so the caller held template keeps its pre-call state (second
components), keeps its raw leaf shape, and a second compilation from the
same template sees exactly what a first compilation from the untouched
template would see; the aggregate receives the normalization of the
template. -/
theorem C4_clone_reuse (T : Q) (bf1 bf2 : QChild → WhereNode) :
    (ConditionalAggregate.add_to_query T bf1).snd = T ∧
    (ConditionalAggregate.add_to_query
        ((ConditionalAggregate.add_to_query T bf1).snd) bf2).snd = T ∧
    (ConditionalAggregate.add_to_query T bf1).fst = transform_q T bf1 ∧
    (ConditionalAggregate.add_to_query
        ((ConditionalAggregate.add_to_query T bf1).snd) bf2).fst =
      (ConditionalAggregate.add_to_query T bf2).fst ∧
    Q.leafChildren ((ConditionalAggregate.add_to_query T bf1).snd) = Q.leafChildren T ∧
    Q.shape ((ConditionalAggregate.add_to_query T bf1).snd) = Q.shape T := by
  refine ⟨rfl, rfl, ?_, rfl, rfl, rfl⟩
  simp only [ConditionalAggregate.add_to_query, Q.clone_eq]

/-- C1: a successful aggregate compile emits exactly the template
FUNCTION(CASE WHEN when_sql THEN value ELSE default END) around the render_q
output of its when tree. -/
theorem C1_as_sql_shape (a : SQLConditionalAggregate) (qn : Qn) (ws : String)
    (wps : List Param) (h : render_q a.when qn = .ok (ws, wps)) :
    a.as_sql qn =
      .ok (sql_template a.sql_function ws (a.get_value (field_name_of a.col qn).fst)
          a.default,
        (field_name_of a.col qn).snd ++ wps) := by
  unfold SQLConditionalAggregate.as_sql
  rw [h]

/-- C1 witness at a concrete sum aggregate over a quoted column. -/
theorem C1_as_sql_shape_witness :
    (ConditionalSum.SQLClass (Col.names ["testapp_stat", "count"])
        (Q.mk .AND false [.node wLeafA])).as_sql quoteQn =
      .ok ("SUM(CASE WHEN (a = %s) THEN \"testapp_stat\".\"count\" ELSE 0 END)",
        ["x"]) :=
  C1_as_sql_shape _ quoteQn "(a = %s)" ["x"] rfl

/-- Counterexample input for C5: a column that is an expression with its own
as_sql contributing a bind param. -/
def exprColAgg : SQLConditionalAggregate :=
  ConditionalSum.SQLClass (Col.expr (fun _ => ("LENGTH(detail)", ["cp"])))
    (Q.mk .AND false [.node wLeafA])

/-- C5 counterexample: when the column has its own as_sql with params, the
params returned by the aggregate compile are those column params followed by
when_params, hence not equal to when_params. -/
theorem C5_params_counterexample :
    render_q exprColAgg.when idQn = .ok ("(a = %s)", ["x"]) ∧
    exprColAgg.as_sql idQn =
      .ok ("SUM(CASE WHEN (a = %s) THEN LENGTH(detail) ELSE 0 END)", ["cp", "x"]) ∧
    (["cp", "x"] : List Param) ≠ ["x"] :=
  ⟨rfl, rfl, by decide⟩

/-- C5 amended: the params returned by the aggregate compile are the column
params followed by when_params; they equal when_params exactly whenever the
column contributes no params of its own (in particular for plain and dotted
name columns). -/
theorem C5_params_amended (a : SQLConditionalAggregate) (qn : Qn) (ws : String)
    (wps : List Param) (h : render_q a.when qn = .ok (ws, wps)) :
    (a.as_sql qn).map Prod.snd = .ok ((field_name_of a.col qn).snd ++ wps) ∧
    ((field_name_of a.col qn).snd = [] → (a.as_sql qn).map Prod.snd = .ok wps) := by
  have hmain : (a.as_sql qn).map Prod.snd = .ok ((field_name_of a.col qn).snd ++ wps) := by
    unfold SQLConditionalAggregate.as_sql
    rw [h]
    rfl
  refine ⟨hmain, fun h0 => ?_⟩
  rw [hmain, h0]
  simp

/-- C5 amended witness at a concrete dotted name column, where the column
part is empty and the params are exactly when_params. -/
theorem C5_params_amended_witness :
    ((ConditionalSum.SQLClass (Col.names ["t", "c"])
        (Q.mk .AND false [.node wLeafA])).as_sql quoteQn).map Prod.snd =
      .ok ((field_name_of (Col.names ["t", "c"]) quoteQn).snd ++ ["x"]) ∧
    ((field_name_of (Col.names ["t", "c"]) quoteQn).snd = [] →
      ((ConditionalSum.SQLClass (Col.names ["t", "c"])
          (Q.mk .AND false [.node wLeafA])).as_sql quoteQn).map Prod.snd = .ok ["x"]) :=
  C5_params_amended _ quoteQn "(a = %s)" ["x"] rfl

/-- C6: the conditional sum variant always compiles with function SUM,
default 0 and value the resolved (quoted) target column, and the conditional
count variant always compiles with function COUNT, default NULL and value
the literal 1, for every condition tree and column. -/
theorem C6_sum_count_variants (col : Col) (when : Q) (qn : Qn) (ws : String)
    (wps : List Param) (h : render_q when qn = .ok (ws, wps)) :
    (ConditionalSum.SQLClass col when).as_sql qn =
      .ok (sql_template "SUM" ws (field_name_of col qn).fst "0",
        (field_name_of col qn).snd ++ wps) ∧
    (ConditionalCount.SQLClass col when).as_sql qn =
      .ok (sql_template "COUNT" ws "1" "NULL",
        (field_name_of col qn).snd ++ wps) := by
  constructor
  · unfold SQLConditionalAggregate.as_sql ConditionalSum.SQLClass
    rw [h]
  · unfold SQLConditionalAggregate.as_sql ConditionalCount.SQLClass
    rw [h]

/-- C6 witness at a concrete two leaf condition, matching the expected
outputs of the spec examples up to the host quoting convention. -/
theorem C6_sum_count_variants_witness :
    (ConditionalSum.SQLClass (Col.names ["testapp_stat", "count"])
        (Q.mk .AND false [.node wLeafA, .node wLeafB])).as_sql quoteQn =
      .ok ("SUM(CASE WHEN (a = %s AND b = %s) THEN \"testapp_stat\".\"count\" ELSE 0 END)",
        ["x", "y"]) ∧
    (ConditionalCount.SQLClass (Col.names ["testapp_stat", "count"])
        (Q.mk .AND false [.node wLeafA, .node wLeafB])).as_sql quoteQn =
      .ok ("COUNT(CASE WHEN (a = %s AND b = %s) THEN 1 ELSE NULL END)", ["x", "y"]) :=
  C6_sum_count_variants _ _ quoteQn "(a = %s AND b = %s)" ["x", "y"] rfl

/-- C7 counterexample: rendering a tree with an empty children list does not
fail fast; it silently returns the SQL string "()" with no params. -/
theorem C7_empty_children_counterexample :
    render_q (Q.mk Conn.AND false []) idQn = .ok ("()", []) := rfl

/-- C7 amended: rendering a tree with an empty children list never raises;
it returns exactly the string "()" (prefixed with NOT when negated) and an
empty params list. -/
theorem C7_empty_children_amended (conn : Conn) (neg : Bool) (qn : Qn) :
    render_q (Q.mk conn neg []) qn =
      .ok ((if neg then "NOT " else "") ++ "()", []) := by
  cases neg <;> rfl

/-- C9: rendering and aggregate compilation are deterministic: equal trees,
equal quoting functions and equal aggregates give byte identical
(sql, params) results on repeated calls. -/
theorem C9_render_deterministic (q1 q2 : Q) (qn1 qn2 : Qn)
    (a1 a2 : SQLConditionalAggregate)
    (hq : q1 = q2) (hqn : qn1 = qn2) (ha : a1 = a2) :
    render_q q1 qn1 = render_q q2 qn2 ∧ a1.as_sql qn1 = a2.as_sql qn2 := by
  subst hq
  subst hqn
  subst ha
  exact ⟨rfl, rfl⟩

/-- C9 witness: two calls at the same concrete inputs agree. -/
theorem C9_render_deterministic_witness :
    render_q (Q.mk .AND false [.node wLeafA]) idQn =
      render_q (Q.mk .AND false [.node wLeafA]) idQn ∧
    (ConditionalSum.SQLClass (Col.plain "c")
        (Q.mk .AND false [.node wLeafA])).as_sql idQn =
      (ConditionalSum.SQLClass (Col.plain "c")
          (Q.mk .AND false [.node wLeafA])).as_sql idQn :=
  C9_render_deterministic _ _ idQn idQn _ _ rfl rfl rfl

end Djconnagg
